import Mathlib

/-!
TaskBreaker — verification of the task-creation slice.

Shallow embedding of the TaskBreaker web application's task-creation flow:

* `lib/schemas.ts` — the zod schemas `createTaskSchema`, `updateSubtaskSchema`
  and `aiTaskResponseSchema`;
* `app/api/tasks/route.ts` — the `POST /api/tasks` handler: input validation,
  the three-tier response interpreter, and the persistence step with its
  compensating delete;
* `app/api/breakdown/route.ts` — the inline task-text validation of the older
  breakdown endpoint;
* `app/api/tasks/[taskId]/subtasks/[subtaskId]/route.ts` — the `PATCH` handler
  toggling a subtask's `checked` field.

External collaborators (the completion service, `JSON.parse`, the Supabase
store's success/failure outcomes, generated row ids) are modelled as explicit
parameters of the handler functions; the database is a pair of row lists.
Strings use Lean's `String`, with `jsTrim` standing for JavaScript's
`String.prototype.trim`, `jsSlice` for `.slice(0, n)` and `String.length`
for `.length`.
-/

namespace TaskBreaker

/-- JavaScript `String.prototype.trim`: remove leading and trailing
whitespace characters. (Defined over the character list so that it is
structurally recursive and evaluates inside the kernel.) -/
def jsTrim (s : String) : String :=
  ⟨((s.data.dropWhile Char.isWhitespace).reverse.dropWhile Char.isWhitespace).reverse⟩

/-- JavaScript `.slice(0, n)`: the first `n` characters of the string. -/
def jsSlice (s : String) (n : Nat) : String :=
  ⟨s.data.take n⟩

/-- JSON values as produced by `JSON.parse` on the completion service's raw
text or on a request body. Objects are field lists; `JSON.parse` yields
objects with unique keys (a later duplicate key overwrites the earlier one
before any of this code sees the value). -/
inductive Json where
  | null
  | bool (b : Bool)
  | num (n : Int)
  | str (s : String)
  | arr (elems : List Json)
  | obj (fields : List (String × Json))

/-- JavaScript property access `j.k` for the fields this code reads: yields
the field's value when `j` is an object that has the key, and nothing
(`undefined`) otherwise. -/
def getField (j : Json) (k : String) : Option Json :=
  match j with
  | .obj fields => (fields.find? (fun p => p.1 == k)).map (fun p => p.2)
  | _ => none

/-- `createTaskSchema` from `lib/schemas.ts`:
`z.object({ task: z.string().min(1).max(200).trim() })`.
zod runs the chained checks in order, so `min(1)` and `max(200)` test the
raw string's length and the `.trim()` transform is applied afterwards. -/
def createTaskSchemaParse (body : Json) : Option String :=
  match getField body "task" with
  | some (.str s) =>
    if 1 ≤ s.length ∧ s.length ≤ 200 then some (jsTrim s) else none
  | _ => none

/-- The inline task validation of `app/api/breakdown/route.ts` (lines 11–33):
reject a missing/non-string/empty (falsy) `task`, then trim, then reject a
trimmed length of 0 or above 200, otherwise continue with the trimmed text. -/
def breakdownValidateTask (body : Json) : Option String :=
  match getField body "task" with
  | some (.str task) =>
    if task = "" then none
    else
      let trimmedTask := jsTrim task
      if trimmedTask.length = 0 then none
      else if trimmedTask.length > 200 then none
      else some trimmedTask
  | _ => none

/-- The validated shape of the AI response: a title and subtask texts. -/
structure AITaskResponse where
  title : String
  subtasks : List String
deriving DecidableEq, Repr

/-- Element check of `z.array(z.string().min(1).max(100))`: each element must
be a string of raw length 1–100; any other element fails the whole array. -/
def parseSubtaskList : List Json → Option (List String)
  | [] => some []
  | .str s :: rest =>
    if 1 ≤ s.length ∧ s.length ≤ 100 then
      (parseSubtaskList rest).map (fun tail => s :: tail)
    else none
  | _ :: _ => none

/-- `aiTaskResponseSchema` from `lib/schemas.ts`:
`z.object({ title: z.string().min(2).max(50),
            subtasks: z.array(z.string().min(1).max(100)).min(3).max(5) })`.
No `.trim()` appears anywhere in this schema: all length checks are on the
raw strings and the validated output carries the input strings verbatim. -/
def aiTaskResponseSchemaParse (j : Json) : Option AITaskResponse :=
  match getField j "title", getField j "subtasks" with
  | some (.str title), some (.arr elems) =>
    if 2 ≤ title.length ∧ title.length ≤ 50 then
      match parseSubtaskList elems with
      | some subtasks =>
        if 3 ≤ subtasks.length ∧ subtasks.length ≤ 5 then
          some ⟨title, subtasks⟩
        else none
      | none => none
    else none
  | _, _ => none

/-- `updateSubtaskSchema` from `lib/schemas.ts`:
`z.object({ checked: z.boolean() })`. -/
def updateSubtaskSchemaParse (body : Json) : Option Bool :=
  match getField body "checked" with
  | some (.bool b) => some b
  | _ => none

/-! ## The response interpreter (`POST /api/tasks`, lines 170–219) -/

/-- The element filter of the tier-2 recovery
(`route.ts` line 194): keep an element exactly when it is a string that is
non-empty after trimming; the kept string itself is NOT trimmed here. -/
def usableSubtask : Json → Option String
  | .str s => if 0 < (jsTrim s).length then some s else none
  | _ => none

/-- The subtask texts the tier-2 recovery extracts from the parsed response:
`parsed.subtasks.filter(s => typeof s === "string" && s.trim().length > 0)`,
or no texts at all when `parsed.subtasks` is not an array. -/
def tier2Usable (parsed : Json) : List String :=
  match getField parsed "subtasks" with
  | some (.arr elems) => elems.filterMap usableSubtask
  | _ => []

/-- The title the tier-2 recovery chooses (`route.ts` lines 197–200): the
parsed title trimmed and cut to 50 characters when it is a string of trimmed
length at least 2, otherwise the original user input (the initialisation
`friendlyTitle = task` at line 171). -/
def tier2Title (parsed : Json) (task : String) : String :=
  match getField parsed "title" with
  | some (.str t) => if 2 ≤ (jsTrim t).length then jsSlice (jsTrim t) 50 else task
  | _ => task

/-- Outcome of the interpreter block: either a title with subtask texts, or
the catch of lines 210–219 answering 500 "Failed to parse task breakdown". -/
inductive InterpretResult where
  | ok (title : String) (subtaskTexts : List String)
  | parseError
deriving DecidableEq, Repr

/-- The three-tier interpreter of `route.ts` lines 170–219.
`parsedContent` is the outcome of `JSON.parse(content)`: `none` when the
parse threw (also covering the property accesses on `null` that throw).
Tier 1 returns the fully validated title and subtasks verbatim; tier 2
filters `parsed.subtasks` and salvages a title; every other path, including
the final zero-subtask check of line 207, lands in the catch. -/
def interpret (parsedContent : Option Json) (task : String) : InterpretResult :=
  match parsedContent with
  | none => .parseError
  | some parsed =>
    match aiTaskResponseSchemaParse parsed with
    | some validated =>
      if validated.subtasks.length = 0 then .parseError
      else .ok validated.title validated.subtasks
    | none =>
      match getField parsed "subtasks" with
      | some (.arr elems) =>
        if 0 < elems.length then
          let subtaskTexts := elems.filterMap usableSubtask
          if subtaskTexts.length = 0 then .parseError
          else .ok (tier2Title parsed task) subtaskTexts
        else .parseError
      | _ => .parseError

/-! ## The store model and the `POST /api/tasks` handler -/

/-- A row of the `tasks` table. -/
structure TaskRow where
  id : Nat
  userId : Nat
  title : String
deriving DecidableEq, Repr

/-- A row of the `subtasks` table. -/
structure SubtaskRow where
  id : Nat
  taskId : Nat
  text : String
  checked : Bool
  position : Nat
deriving DecidableEq, Repr

/-- The visible state of the persistence service: the two tables. -/
structure DB where
  tasks : List TaskRow
  subtasks : List SubtaskRow
deriving DecidableEq, Repr

/-- The responses the `POST /api/tasks` handler can produce. -/
inductive PostResponse where
  | unauthorized
  | invalidInput
  | genFailed
  | parseFailed
  | taskCreateFailed
  | subtaskCreateFailed
  | created (taskId : Nat) (title : String) (subtasks : List SubtaskRow)
deriving DecidableEq, Repr

/-- Everything outside the handler's own logic, fixed per request: the
authenticated user, the parsed request body, the completion content and the
result of `JSON.parse` on it, whether each of the two inserts succeeds at the
store, and the fresh row ids the store assigns. -/
structure PostEnv where
  user : Option Nat
  body : Json
  content : Option String
  parsedContent : Option Json
  taskInsertOk : Bool
  subtaskInsertOk : Bool
  newTaskId : Nat
  subtaskIdBase : Nat

/-- The rows built by `route.ts` lines 242–247:
`subtaskTexts.map((text, index) => ({task_id, text: text.trim(),
checked: false, position: index}))`, with the store assigning consecutive
fresh ids; `i` is the running index. -/
def subtaskRowsFrom (taskId idBase : Nat) : Nat → List String → List SubtaskRow
  | _, [] => []
  | i, text :: rest =>
    ⟨idBase + i, taskId, jsTrim text, false, i⟩ :: subtaskRowsFrom taskId idBase (i + 1) rest

/-- The batch handed to the subtasks insert, indexed from 0. -/
def subtasksToInsert (taskId idBase : Nat) (subtaskTexts : List String) : List SubtaskRow :=
  subtaskRowsFrom taskId idBase 0 subtaskTexts

/-- The persistence step of `POST /api/tasks` (lines 221–282): insert the
task row; on its failure answer 500 with no change. Then insert the subtask
batch; on its failure delete the just-created task row (the compensating
`delete().eq("id", taskId)` of line 259) and answer 500; otherwise answer
201 with the new task and its rows. A failed insert leaves the store
unchanged (each insert is one atomic statement at the store). -/
def postTasksPersist (uid : Nat) (friendlyTitle : String) (subtaskTexts : List String)
    (env : PostEnv) (db : DB) : PostResponse × DB :=
  if env.taskInsertOk then
    let newTask : TaskRow := ⟨env.newTaskId, uid, friendlyTitle⟩
    let db1 : DB := ⟨db.tasks ++ [newTask], db.subtasks⟩
    let rows := subtasksToInsert env.newTaskId env.subtaskIdBase subtaskTexts
    if env.subtaskInsertOk then
      (.created env.newTaskId friendlyTitle rows, ⟨db1.tasks, db1.subtasks ++ rows⟩)
    else
      (.subtaskCreateFailed, ⟨db1.tasks.filter (fun t => t.id != env.newTaskId), db1.subtasks⟩)
  else (.taskCreateFailed, db)

/-- The `POST /api/tasks` handler (lines 82–293): authentication check,
`createTaskSchema` validation, completion call (its content given by the
environment), interpreter, then persistence. -/
def postTasks (env : PostEnv) (db : DB) : PostResponse × DB :=
  match env.user with
  | none => (.unauthorized, db)
  | some uid =>
    match createTaskSchemaParse env.body with
    | none => (.invalidInput, db)
    | some task =>
      match env.content with
      | none => (.genFailed, db)
      | some _ =>
        match interpret env.parsedContent task with
        | .parseError => (.parseFailed, db)
        | .ok friendlyTitle subtaskTexts => postTasksPersist uid friendlyTitle subtaskTexts env db

/-! ## The `PATCH /tasks/{taskId}/subtasks/{subtaskId}` handler -/

/-- The responses the PATCH handler can produce. -/
inductive PatchResponse where
  | unauthorized
  | invalidInput
  | notFound
  | updateFailed
  | ok (subtask : SubtaskRow)
deriving DecidableEq, Repr

/-- The PATCH handler of
`app/api/tasks/[taskId]/subtasks/[subtaskId]/route.ts`: authentication,
`updateSubtaskSchema` validation, ownership check of the task row, then
`update({checked}).eq("id", subtaskId).eq("task_id", taskId)` — an update
that writes only `checked` on the rows matching both key columns — followed
by `.single()`, which errors when no row matched. -/
def patchSubtask (user : Option Nat) (body : Json) (taskId subtaskId : Nat)
    (db : DB) : PatchResponse × DB :=
  match user with
  | none => (.unauthorized, db)
  | some uid =>
    match updateSubtaskSchemaParse body with
    | none => (.invalidInput, db)
    | some checked =>
      if db.tasks.any (fun t => t.id == taskId && t.userId == uid) then
        let updated := db.subtasks.map (fun s =>
          if s.id == subtaskId && s.taskId == taskId then
            { s with checked := checked }
          else s)
        match updated.find? (fun s => s.id == subtaskId && s.taskId == taskId) with
        | some subtask => (.ok subtask, ⟨db.tasks, updated⟩)
        | none => (.updateFailed, ⟨db.tasks, updated⟩)
      else (.notFound, db)

/-! ## Helper lemmas -/

/-- Request body `{task: s}`. -/
def mkTaskBody (s : String) : Json :=
  Json.obj [("task", Json.str s)]

/-! ## Claim C1 — task-input validation -/

set_option maxRecDepth 8000 in
/-- Claim C1 counterexample: the input `" "` has trimmed length 0, so by the
claim `createTaskSchema` validation must fail on it; instead it succeeds and
returns the empty string, because the zod chain
`min(1).max(200).trim()` checks the bounds on the raw string before
trimming. Dually, `"a"` followed by 200 spaces has trimmed length 1 (inside
the claimed accepting range [1,200]) yet is rejected, its raw length being
201. -/
theorem createTask_whitespace_passes_cex :
    (jsTrim " ").length = 0 ∧
    createTaskSchemaParse (mkTaskBody " ") = some "" ∧
    (jsTrim ("a" ++ String.mk (List.replicate 200 ' '))).length = 1 ∧
    createTaskSchemaParse (mkTaskBody ("a" ++ String.mk (List.replicate 200 ' '))) = none := by
  refine ⟨rfl, rfl, ?_, ?_⟩ <;> decide

/-- Claim C1 (amended): the breakdown route's inline check behaves as the
claim states — it fails exactly when the trimmed length is 0 or above 200
and otherwise returns the trimmed text — while `createTaskSchema` (used by
`POST /api/tasks`) checks the bounds on the raw, untrimmed string: it fails
exactly when the raw length is 0 or above 200, and otherwise returns the
trimmed text. -/
theorem taskInput_validation_characterization (s : String) :
    (createTaskSchemaParse (mkTaskBody s) =
      if 1 ≤ s.length ∧ s.length ≤ 200 then some (jsTrim s) else none) ∧
    (breakdownValidateTask (mkTaskBody s) =
      if (jsTrim s).length = 0 ∨ 200 < (jsTrim s).length then none
      else some (jsTrim s)) := by
  refine ⟨rfl, ?_⟩
  by_cases hs : s = ""
  · subst hs
    decide
  · show (if s = "" then none
      else if (jsTrim s).length = 0 then none
      else if (jsTrim s).length > 200 then none
      else some (jsTrim s)) = _
    rw [if_neg hs]
    by_cases h0 : (jsTrim s).length = 0
    · rw [if_pos h0, if_pos (Or.inl h0)]
    · rw [if_neg h0]
      by_cases h2 : (jsTrim s).length > 200
      · rw [if_pos h2, if_pos (Or.inr h2)]
      · rw [if_neg h2, if_neg]
        intro h
        rcases h with h | h
        · exact h0 h
        · exact h2 h

/-! ## Claim C5 — AI-response validation -/

/-- Characterization of the element check of
`z.array(z.string().min(1).max(100))`: it succeeds exactly on lists of
strings whose raw lengths are all in [1,100], and returns those strings. -/
theorem parseSubtaskList_eq_some {elems : List Json} {subs : List String} :
    parseSubtaskList elems = some subs ↔
      elems = subs.map Json.str ∧ ∀ s ∈ subs, 1 ≤ s.length ∧ s.length ≤ 100 := by
  induction elems generalizing subs with
  | nil =>
    constructor
    · intro h
      simp only [parseSubtaskList, Option.some.injEq] at h
      subst h
      simp
    · rintro ⟨h, -⟩
      cases subs with
      | nil => rfl
      | cons s tail => simp at h
  | cons e rest ih =>
    cases e with
    | str s =>
      by_cases hb : 1 ≤ s.length ∧ s.length ≤ 100
      · constructor
        · intro h
          simp only [parseSubtaskList, if_pos hb] at h
          cases hp : parseSubtaskList rest with
          | none => rw [hp] at h; simp at h
          | some tail =>
            rw [hp] at h
            simp only [Option.map_some', Option.some.injEq] at h
            subst h
            obtain ⟨h1, h2⟩ := ih.mp hp
            refine ⟨by simp [h1], ?_⟩
            intro s' hs'
            rcases List.mem_cons.mp hs' with rfl | hmem
            · exact hb
            · exact h2 s' hmem
        · rintro ⟨heq, hbound⟩
          cases subs with
          | nil => simp at heq
          | cons s' tail =>
            simp only [List.map_cons, List.cons.injEq, Json.str.injEq] at heq
            obtain ⟨hss, hrest⟩ := heq
            subst hss
            have hp : parseSubtaskList rest = some tail :=
              ih.mpr ⟨hrest, fun x hx => hbound x (List.mem_cons_of_mem _ hx)⟩
            simp [parseSubtaskList, if_pos hb, hp]
      · constructor
        · intro h
          simp [parseSubtaskList, if_neg hb] at h
        · rintro ⟨heq, hbound⟩
          cases subs with
          | nil => simp at heq
          | cons s' tail =>
            simp only [List.map_cons, List.cons.injEq, Json.str.injEq] at heq
            obtain ⟨hss, -⟩ := heq
            subst hss
            exact absurd (hbound s (List.mem_cons_self _ _)) hb
    | null =>
      constructor
      · intro h; simp [parseSubtaskList] at h
      · rintro ⟨heq, -⟩
        cases subs with
        | nil => simp at heq
        | cons s' tail => simp at heq
    | bool b =>
      constructor
      · intro h; simp [parseSubtaskList] at h
      · rintro ⟨heq, -⟩
        cases subs with
        | nil => simp at heq
        | cons s' tail => simp at heq
    | num n =>
      constructor
      · intro h; simp [parseSubtaskList] at h
      · rintro ⟨heq, -⟩
        cases subs with
        | nil => simp at heq
        | cons s' tail => simp at heq
    | arr xs =>
      constructor
      · intro h; simp [parseSubtaskList] at h
      · rintro ⟨heq, -⟩
        cases subs with
        | nil => simp at heq
        | cons s' tail => simp at heq
    | obj fs =>
      constructor
      · intro h; simp [parseSubtaskList] at h
      · rintro ⟨heq, -⟩
        cases subs with
        | nil => simp at heq
        | cons s' tail => simp at heq

/-- Claim C5 counterexample: the claim requires entries that are empty after
trimming to be rejected, but `aiTaskResponseSchema` never trims: three
single-space subtasks (each empty after trimming, raw length 1) validate
successfully and are returned verbatim. -/
theorem aiResponse_blank_subtasks_accepted_cex :
    (jsTrim " ").length = 0 ∧
    aiTaskResponseSchemaParse
      (Json.obj [("title", Json.str "ab"),
                 ("subtasks", Json.arr [Json.str " ", Json.str " ", Json.str " "])]) =
      some ⟨"ab", [" ", " ", " "]⟩ :=
  ⟨rfl, rfl⟩

/-- Full characterization of `aiTaskResponseSchema`: validation succeeds
exactly on objects whose `title` is a string of raw length 2–50 and whose
`subtasks` is an array of 3–5 strings of raw length 1–100, and the validated
output carries those strings verbatim. -/
theorem aiParse_eq_some_iff (j : Json) (v : AITaskResponse) :
    aiTaskResponseSchemaParse j = some v ↔
      getField j "title" = some (Json.str v.title) ∧
      2 ≤ v.title.length ∧ v.title.length ≤ 50 ∧
      getField j "subtasks" = some (Json.arr (v.subtasks.map Json.str)) ∧
      3 ≤ v.subtasks.length ∧ v.subtasks.length ≤ 5 ∧
      (∀ s ∈ v.subtasks, 1 ≤ s.length ∧ s.length ≤ 100) := by
  constructor
  · intro h
    unfold aiTaskResponseSchemaParse at h
    split at h
    next title elems ht hsub =>
      by_cases hlen : 2 ≤ title.length ∧ title.length ≤ 50
      · rw [if_pos hlen] at h
        rcases hp : parseSubtaskList elems with _ | subs
        · rw [hp] at h; simp at h
        · rw [hp] at h
          have h' : (if 3 ≤ subs.length ∧ subs.length ≤ 5
              then some (⟨title, subs⟩ : AITaskResponse) else none) = some v := h
          by_cases hcnt : 3 ≤ subs.length ∧ subs.length ≤ 5
          · rw [if_pos hcnt] at h'
            injection h' with h'
            subst h'
            obtain ⟨helems, hbounds⟩ := parseSubtaskList_eq_some.mp hp
            subst helems
            exact ⟨ht, hlen.1, hlen.2, hsub, hcnt.1, hcnt.2, hbounds⟩
          · rw [if_neg hcnt] at h'; simp at h'
      · rw [if_neg hlen] at h; simp at h
    next => simp at h
  · rintro ⟨ht, h2, h50, hsub, h3, h5, hbounds⟩
    unfold aiTaskResponseSchemaParse
    rw [ht, hsub]
    have hp : parseSubtaskList (v.subtasks.map Json.str) = some v.subtasks :=
      parseSubtaskList_eq_some.mpr ⟨rfl, hbounds⟩
    simp only [hp, if_pos (And.intro h2 h50), if_pos (And.intro h3 h5)]

/-- Claim C5 (amended): `aiTaskResponseSchema` validation succeeds exactly
when the object's `title` is a string of raw length 2–50 and its `subtasks`
is an array of 3–5 strings each of raw (untrimmed) length 1–100 — no
trimming is applied anywhere, so whitespace-only entries of raw length ≥ 1
are accepted. The validated output carries the inputs verbatim, the
validation is a pure function, and re-validating a validated output returns
it unchanged. -/
theorem aiResponse_validation_characterization (j : Json) (v : AITaskResponse) :
    (aiTaskResponseSchemaParse j = some v ↔
      getField j "title" = some (Json.str v.title) ∧
      2 ≤ v.title.length ∧ v.title.length ≤ 50 ∧
      getField j "subtasks" = some (Json.arr (v.subtasks.map Json.str)) ∧
      3 ≤ v.subtasks.length ∧ v.subtasks.length ≤ 5 ∧
      (∀ s ∈ v.subtasks, 1 ≤ s.length ∧ s.length ≤ 100)) ∧
    (aiTaskResponseSchemaParse j = some v →
      aiTaskResponseSchemaParse
        (Json.obj [("title", Json.str v.title),
                   ("subtasks", Json.arr (v.subtasks.map Json.str))]) = some v) := by
  refine ⟨aiParse_eq_some_iff j v, ?_⟩
  intro h
  obtain ⟨-, h2, h50, -, h3, h5, hbounds⟩ := (aiParse_eq_some_iff j v).mp h
  exact (aiParse_eq_some_iff _ v).mpr ⟨rfl, h2, h50, rfl, h3, h5, hbounds⟩

/-! ## Interpreter lemmas -/

/-- Closed form of the interpreter, proved equal to `interpret` in
`interpret_eq_spec`: tier 1 never trips over the zero-subtask check (the
schema guarantees at least 3), and the tier-2 branch succeeds exactly when
the filtered texts are non-empty. -/
def interpretSpec (parsedContent : Option Json) (task : String) : InterpretResult :=
  match parsedContent with
  | none => .parseError
  | some parsed =>
    match aiTaskResponseSchemaParse parsed with
    | some validated => .ok validated.title validated.subtasks
    | none =>
      if tier2Usable parsed = [] then .parseError
      else .ok (tier2Title parsed task) (tier2Usable parsed)

theorem tier2Usable_eq_of_arr {j : Json} {elems : List Json}
    (hg : getField j "subtasks" = some (Json.arr elems)) :
    tier2Usable j = elems.filterMap usableSubtask := by
  unfold tier2Usable
  rw [hg]

theorem interpret_eq_spec (p : Option Json) (task : String) :
    interpret p task = interpretSpec p task := by
  cases p with
  | none => rfl
  | some j =>
    cases hv : aiTaskResponseSchemaParse j with
    | some v =>
      obtain ⟨-, -, -, -, h3, -, -⟩ := (aiParse_eq_some_iff j v).mp hv
      have hl : interpret (some j) task =
          if v.subtasks.length = 0 then .parseError else .ok v.title v.subtasks := by
        simp only [interpret]
        rw [hv]
      have hr : interpretSpec (some j) task = .ok v.title v.subtasks := by
        simp only [interpretSpec]
        rw [hv]
      rw [hl, hr, if_neg (by omega : ¬ v.subtasks.length = 0)]
    | none =>
      have hr : interpretSpec (some j) task =
          if tier2Usable j = [] then .parseError
          else .ok (tier2Title j task) (tier2Usable j) := by
        simp only [interpretSpec]
        rw [hv]
      rcases hg : getField j "subtasks" with _ | jv
      · have hl : interpret (some j) task = .parseError := by
          simp only [interpret]
          rw [hv, hg]
        have hu : tier2Usable j = [] := by unfold tier2Usable; rw [hg]
        rw [hl, hr, if_pos hu]
      · cases jv with
        | arr elems =>
          have hu := tier2Usable_eq_of_arr hg
          have hl : interpret (some j) task =
              if 0 < elems.length then
                if (elems.filterMap usableSubtask).length = 0 then .parseError
                else .ok (tier2Title j task) (elems.filterMap usableSubtask)
              else .parseError := by
            simp only [interpret]
            rw [hv, hg]
          rw [hl, hr, hu]
          by_cases hpos : 0 < elems.length
          · rw [if_pos hpos]
            by_cases hzero : (elems.filterMap usableSubtask).length = 0
            · rw [if_pos hzero, if_pos (List.length_eq_zero.mp hzero)]
            · rw [if_neg hzero,
                if_neg (fun hn => hzero (by rw [hn]; rfl))]
          · rw [if_neg hpos]
            have : elems = [] := by
              cases elems with
              | nil => rfl
              | cons a l => exact absurd (Nat.succ_pos _) hpos
            subst this
            simp
        | null =>
          have hl : interpret (some j) task = .parseError := by
            simp only [interpret]; rw [hv, hg]
          have hu : tier2Usable j = [] := by unfold tier2Usable; rw [hg]
          rw [hl, hr, if_pos hu]
        | bool b =>
          have hl : interpret (some j) task = .parseError := by
            simp only [interpret]; rw [hv, hg]
          have hu : tier2Usable j = [] := by unfold tier2Usable; rw [hg]
          rw [hl, hr, if_pos hu]
        | num n =>
          have hl : interpret (some j) task = .parseError := by
            simp only [interpret]; rw [hv, hg]
          have hu : tier2Usable j = [] := by unfold tier2Usable; rw [hg]
          rw [hl, hr, if_pos hu]
        | str s =>
          have hl : interpret (some j) task = .parseError := by
            simp only [interpret]; rw [hv, hg]
          have hu : tier2Usable j = [] := by unfold tier2Usable; rw [hg]
          rw [hl, hr, if_pos hu]
        | obj fs =>
          have hl : interpret (some j) task = .parseError := by
            simp only [interpret]; rw [hv, hg]
          have hu : tier2Usable j = [] := by unfold tier2Usable; rw [hg]
          rw [hl, hr, if_pos hu]

theorem interpret_tier1 {j : Json} {v : AITaskResponse}
    (h : aiTaskResponseSchemaParse j = some v) (task : String) :
    interpret (some j) task = .ok v.title v.subtasks := by
  rw [interpret_eq_spec]
  simp only [interpretSpec]
  rw [h]

theorem interpret_tier2 {j : Json} (task : String)
    (hv : aiTaskResponseSchemaParse j = none) (hne : tier2Usable j ≠ []) :
    interpret (some j) task = .ok (tier2Title j task) (tier2Usable j) := by
  rw [interpret_eq_spec]
  simp only [interpretSpec]
  rw [hv]
  exact if_neg hne

theorem interpret_fail {j : Json} (task : String)
    (hv : aiTaskResponseSchemaParse j = none) (hnil : tier2Usable j = []) :
    interpret (some j) task = .parseError := by
  rw [interpret_eq_spec]
  simp only [interpretSpec]
  rw [hv]
  exact if_pos hnil

/-- Inversion: a successful interpretation came from tier 1 (full
validation) or tier 2 (non-empty filtered subtasks). -/
theorem interpret_ok_inv {p : Option Json} {task t : String} {texts : List String}
    (h : interpret p task = .ok t texts) :
    ∃ j, p = some j ∧
      ((∃ v, aiTaskResponseSchemaParse j = some v ∧ t = v.title ∧ texts = v.subtasks) ∨
       (aiTaskResponseSchemaParse j = none ∧ tier2Usable j ≠ [] ∧
        t = tier2Title j task ∧ texts = tier2Usable j)) := by
  rw [interpret_eq_spec] at h
  cases p with
  | none => exact absurd h (by simp [interpretSpec])
  | some j =>
    refine ⟨j, rfl, ?_⟩
    simp only [interpretSpec] at h
    cases hv : aiTaskResponseSchemaParse j with
    | some v =>
      rw [hv] at h
      have h' : InterpretResult.ok v.title v.subtasks = .ok t texts := h
      injection h' with h1 h2
      exact Or.inl ⟨v, rfl, h1.symm, h2.symm⟩
    | none =>
      rw [hv] at h
      have h' : (if tier2Usable j = [] then InterpretResult.parseError
          else .ok (tier2Title j task) (tier2Usable j)) = .ok t texts := h
      by_cases hnil : tier2Usable j = []
      · rw [if_pos hnil] at h'
        exact absurd h' (by simp)
      · rw [if_neg hnil] at h'
        injection h' with h1 h2
        exact Or.inr ⟨rfl, hnil, h1.symm, h2.symm⟩

/-- A successful interpretation always carries at least one subtask text. -/
theorem interpret_ok_pos {p : Option Json} {task t : String} {texts : List String}
    (h : interpret p task = .ok t texts) : 0 < texts.length := by
  obtain ⟨j, -, hcase⟩ := interpret_ok_inv h
  rcases hcase with ⟨v, hv, -, htexts⟩ | ⟨-, hne, -, htexts⟩
  · obtain ⟨-, -, -, -, h3, -, -⟩ := (aiParse_eq_some_iff j v).mp hv
    subst htexts
    omega
  · subst htexts
    exact List.length_pos.mpr hne

/-! ## Persistence lemmas -/

theorem subtaskRowsFrom_length (tid b : Nat) (texts : List String) : ∀ i,
    (subtaskRowsFrom tid b i texts).length = texts.length := by
  induction texts with
  | nil => intro i; rfl
  | cons t rest ih =>
    intro i
    simp only [subtaskRowsFrom, List.length_cons, ih]

theorem subtaskRowsFrom_positions (tid b : Nat) (texts : List String) : ∀ i,
    (subtaskRowsFrom tid b i texts).map (fun r => r.position) =
      List.range' i texts.length := by
  induction texts with
  | nil => intro i; rfl
  | cons t rest ih =>
    intro i
    simp only [subtaskRowsFrom, List.map_cons, ih, List.length_cons]
    rfl

theorem subtaskRowsFrom_fields (tid b : Nat) (texts : List String) : ∀ i,
    ∀ r ∈ subtaskRowsFrom tid b i texts, r.checked = false ∧ r.taskId = tid := by
  induction texts with
  | nil => intro i r hr; exact absurd hr (List.not_mem_nil r)
  | cons t rest ih =>
    intro i r hr
    rcases List.mem_cons.mp hr with rfl | hmem
    · exact ⟨rfl, rfl⟩
    · exact ih (i + 1) r hmem

theorem subtaskRowsFrom_texts (tid b : Nat) (texts : List String) : ∀ i,
    (subtaskRowsFrom tid b i texts).map (fun r => r.text) = texts.map jsTrim := by
  induction texts with
  | nil => intro i; rfl
  | cons t rest ih =>
    intro i
    simp only [subtaskRowsFrom, List.map_cons, ih]

theorem subtasksToInsert_spec (tid b : Nat) (texts : List String) :
    (subtasksToInsert tid b texts).length = texts.length ∧
    (subtasksToInsert tid b texts).map (fun r => r.position) =
      List.range texts.length ∧
    (subtasksToInsert tid b texts).map (fun r => r.text) = texts.map jsTrim ∧
    ∀ r ∈ subtasksToInsert tid b texts, r.checked = false ∧ r.taskId = tid := by
  refine ⟨subtaskRowsFrom_length tid b texts 0, ?_,
    subtaskRowsFrom_texts tid b texts 0, subtaskRowsFrom_fields tid b texts 0⟩
  rw [List.range_eq_range']
  exact subtaskRowsFrom_positions tid b texts 0

/-- Exhaustive description of one `POST /api/tasks` execution: either the
request fails before any write (store untouched), or the subtask insert
fails and the compensating delete leaves the tasks table as the original
plus the new row filtered by id, or everything succeeds and both tables
grow by exactly the new rows. -/
theorem postTasks_run_cases (env : PostEnv) (db : DB) :
    ((∀ tid t rows, (postTasks env db).1 ≠ .created tid t rows) ∧
     (postTasks env db).1 ≠ .subtaskCreateFailed ∧
     (postTasks env db).2 = db) ∨
    ((postTasks env db).1 = .subtaskCreateFailed ∧
     ∃ uid title texts, env.user = some uid ∧
       (∃ task, createTaskSchemaParse env.body = some task ∧
         interpret env.parsedContent task = .ok title texts) ∧
       env.taskInsertOk = true ∧ env.subtaskInsertOk = false ∧
       (postTasks env db).2 =
         ⟨(db.tasks ++ [TaskRow.mk env.newTaskId uid title]).filter
            (fun t => t.id != env.newTaskId), db.subtasks⟩) ∨
    (∃ uid title texts, env.user = some uid ∧
       (∃ task, createTaskSchemaParse env.body = some task ∧
         interpret env.parsedContent task = .ok title texts) ∧
       env.taskInsertOk = true ∧ env.subtaskInsertOk = true ∧
       postTasks env db =
         (.created env.newTaskId title
            (subtasksToInsert env.newTaskId env.subtaskIdBase texts),
          ⟨db.tasks ++ [TaskRow.mk env.newTaskId uid title],
           db.subtasks ++ subtasksToInsert env.newTaskId env.subtaskIdBase texts⟩)) := by
  cases henv : env.user with
  | none =>
    have h1 : postTasks env db = (.unauthorized, db) := by
      unfold postTasks
      rw [henv]
    refine Or.inl ?_
    rw [h1]
    exact ⟨fun tid t rows h => by simp at h, by simp, rfl⟩
  | some uid =>
    have h1 : postTasks env db =
        match createTaskSchemaParse env.body with
        | none => (.invalidInput, db)
        | some task =>
          match env.content with
          | none => (.genFailed, db)
          | some _ =>
            match interpret env.parsedContent task with
            | .parseError => (.parseFailed, db)
            | .ok friendlyTitle subtaskTexts =>
              postTasksPersist uid friendlyTitle subtaskTexts env db := by
      unfold postTasks
      rw [henv]
    cases hschema : createTaskSchemaParse env.body with
    | none =>
      have h2 : postTasks env db = (.invalidInput, db) := by
        rw [h1, hschema]
      refine Or.inl ?_
      rw [h2]
      exact ⟨fun tid t rows h => by simp at h, by simp, rfl⟩
    | some task =>
      have h2 : postTasks env db =
          match env.content with
          | none => (.genFailed, db)
          | some _ =>
            match interpret env.parsedContent task with
            | .parseError => (.parseFailed, db)
            | .ok friendlyTitle subtaskTexts =>
              postTasksPersist uid friendlyTitle subtaskTexts env db := by
        rw [h1, hschema]
      cases hc : env.content with
      | none =>
        have h3 : postTasks env db = (.genFailed, db) := by
          rw [h2, hc]
        refine Or.inl ?_
        rw [h3]
        exact ⟨fun tid t rows h => by simp at h, by simp, rfl⟩
      | some c =>
        have h3 : postTasks env db =
            match interpret env.parsedContent task with
            | .parseError => (.parseFailed, db)
            | .ok friendlyTitle subtaskTexts =>
              postTasksPersist uid friendlyTitle subtaskTexts env db := by
          rw [h2, hc]
        cases hint : interpret env.parsedContent task with
        | parseError =>
          have h4 : postTasks env db = (.parseFailed, db) := by
            rw [h3, hint]
          refine Or.inl ?_
          rw [h4]
          exact ⟨fun tid t rows h => by simp at h, by simp, rfl⟩
        | ok title texts =>
          have h4 : postTasks env db =
              if env.taskInsertOk then
                if env.subtaskInsertOk then
                  (.created env.newTaskId title
                     (subtasksToInsert env.newTaskId env.subtaskIdBase texts),
                   ⟨db.tasks ++ [TaskRow.mk env.newTaskId uid title],
                    db.subtasks ++
                      subtasksToInsert env.newTaskId env.subtaskIdBase texts⟩)
                else
                  (.subtaskCreateFailed,
                   ⟨(db.tasks ++ [TaskRow.mk env.newTaskId uid title]).filter
                      (fun t => t.id != env.newTaskId), db.subtasks⟩)
              else (.taskCreateFailed, db) := by
            rw [h3, hint]
            rfl
          cases hti : env.taskInsertOk with
          | false =>
            rw [hti] at h4
            rw [if_neg Bool.false_ne_true] at h4
            refine Or.inl ?_
            rw [h4]
            exact ⟨fun tid t rows h => by simp at h, by simp, rfl⟩
          | true =>
            rw [hti] at h4
            rw [if_pos rfl] at h4
            cases hsi : env.subtaskInsertOk with
            | false =>
              rw [hsi] at h4
              rw [if_neg Bool.false_ne_true] at h4
              refine Or.inr (Or.inl ?_)
              rw [h4]
              exact ⟨rfl, uid, title, texts, rfl, ⟨task, rfl, hint⟩,
                rfl, rfl, rfl⟩
            | true =>
              rw [hsi] at h4
              rw [if_pos rfl] at h4
              refine Or.inr (Or.inr ?_)
              exact ⟨uid, title, texts, rfl, ⟨task, rfl, hint⟩,
                rfl, rfl, h4⟩

/-- Inversion for a successful creation: the response and final state of
`postTasks` when it answers `created`. -/
theorem postTasks_created_inv {env : PostEnv} {db : DB} {tid : Nat}
    {title : String} {rows : List SubtaskRow}
    (h : (postTasks env db).1 = .created tid title rows) :
    ∃ uid task texts, env.user = some uid ∧
      createTaskSchemaParse env.body = some task ∧
      interpret env.parsedContent task = .ok title texts ∧
      tid = env.newTaskId ∧
      rows = subtasksToInsert env.newTaskId env.subtaskIdBase texts ∧
      (postTasks env db).2 =
        ⟨db.tasks ++ [⟨env.newTaskId, uid, title⟩], db.subtasks ++ rows⟩ := by
  rcases postTasks_run_cases env db with ⟨hno, -, -⟩ | ⟨hresp, -⟩ | hcase
  · exact absurd h (hno tid title rows)
  · rw [hresp] at h; simp at h
  · obtain ⟨uid, title', texts, huser, ⟨task, hschema, hint⟩, -, -, heq⟩ := hcase
    have h1 : (postTasks env db).1 =
        .created env.newTaskId title'
          (subtasksToInsert env.newTaskId env.subtaskIdBase texts) := by
      rw [heq]
    rw [h] at h1
    injection h1 with htid htitle hrows
    subst htid
    subst htitle
    subst hrows
    exact ⟨uid, task, texts, huser, hschema, hint, rfl, rfl, by rw [heq]⟩

/-! ## Concrete request environments used by the examples -/

/-- The empty store. -/
def emptyDB : DB :=
  ⟨[], []⟩

/-- A request whose completion response parses to
`{"title": "ab", "subtasks": ["a"]}`: full validation fails (fewer than 3
subtasks) and the tier-2 recovery salvages a single subtask. -/
def envOneSubtask : PostEnv :=
  { user := some 0
    body := mkTaskBody "Plan a thing"
    content := some "raw"
    parsedContent := some (Json.obj
      [("title", Json.str "ab"), ("subtasks", Json.arr [Json.str "a"])])
    taskInsertOk := true
    subtaskInsertOk := true
    newTaskId := 1
    subtaskIdBase := 10 }

/-- A request whose completion response parses to
`{"title": "Valid Title", "subtasks": ["x", "y"]}`: tier 2 salvages two
subtasks. -/
def envTwoSubtasks : PostEnv :=
  { user := some 0
    body := mkTaskBody "Organize event"
    content := some "raw"
    parsedContent := some (Json.obj
      [("title", Json.str "Valid Title"),
       ("subtasks", Json.arr [Json.str "x", Json.str "y"])])
    taskInsertOk := true
    subtaskInsertOk := true
    newTaskId := 1
    subtaskIdBase := 10 }

/-- A request whose completion response fully validates (tier 1) with three
subtasks. -/
def envTier1 : PostEnv :=
  { user := some 0
    body := mkTaskBody "Plan a birthday party"
    content := some "raw"
    parsedContent := some (Json.obj
      [("title", Json.str "Birthday Party Planning"),
       ("subtasks", Json.arr
         [Json.str "Send invitations", Json.str "Order cake",
          Json.str "Buy decorations"])])
    taskInsertOk := true
    subtaskInsertOk := true
    newTaskId := 1
    subtaskIdBase := 10 }

/-- A fully validating response whose subtask texts carry surrounding
whitespace. -/
def envTier1Ws : PostEnv :=
  { user := some 0
    body := mkTaskBody "Errands"
    content := some "raw"
    parsedContent := some (Json.obj
      [("title", Json.str "My Nice Title"),
       ("subtasks", Json.arr
         [Json.str " a ", Json.str "b ", Json.str "c"])])
    taskInsertOk := true
    subtaskInsertOk := true
    newTaskId := 1
    subtaskIdBase := 10 }

/-- A request where the subtask batch insert fails at the store after the
task row was created. -/
def envSubFail : PostEnv :=
  { user := some 0
    body := mkTaskBody "Pack for the trip"
    content := some "raw"
    parsedContent := some (Json.obj
      [("title", Json.str "Pack List"),
       ("subtasks", Json.arr
         [Json.str "a1", Json.str "b2", Json.str "c3"])])
    taskInsertOk := true
    subtaskInsertOk := false
    newTaskId := 1
    subtaskIdBase := 10 }

/-- A request whose completion content is not JSON (`JSON.parse` throws). -/
def envParseFail : PostEnv :=
  { user := some 0
    body := mkTaskBody "Do something"
    content := some "not json"
    parsedContent := none
    taskInsertOk := true
    subtaskInsertOk := true
    newTaskId := 1
    subtaskIdBase := 10 }

/-! ## Claim C2 — subtask count at creation -/

/-- Claim C2 counterexample: the claim says every persisted task has 3–5
subtasks at creation, including the tier-2 path; this execution persists a
task (`created` response) with exactly one subtask row. -/
theorem tier2_single_subtask_cex :
    (postTasks envOneSubtask emptyDB).1 =
      .created 1 "ab" [⟨10, 1, "a", false, 0⟩] ∧
    (postTasks envOneSubtask emptyDB).2.tasks.length = 1 ∧
    (postTasks envOneSubtask emptyDB).2.subtasks.length = 1 :=
  ⟨rfl, rfl, rfl⟩

/-- Claim C2 (amended): every task persisted by `POST /api/tasks` has at
least one subtask row at creation (never zero); when the completion
response fully validates (tier 1) the count is 3–5; the tier-2 recovery
path guarantees only a count of at least 1 and can fall below 3 or exceed
5. -/
theorem persisted_subtask_count (env : PostEnv) (db : DB) (tid : Nat)
    (title : String) (rows : List SubtaskRow)
    (h : (postTasks env db).1 = .created tid title rows) :
    1 ≤ rows.length ∧
    ∀ j v, env.parsedContent = some j → aiTaskResponseSchemaParse j = some v →
      3 ≤ rows.length ∧ rows.length ≤ 5 := by
  obtain ⟨uid, task, texts, -, -, hint, -, hrows, -⟩ := postTasks_created_inv h
  subst hrows
  have hlen := subtaskRowsFrom_length env.newTaskId env.subtaskIdBase texts 0
  constructor
  · have hp := interpret_ok_pos hint
    unfold subtasksToInsert
    omega
  · intro j v hp hv
    rw [hp] at hint
    obtain ⟨-, -, -, -, h3, h5, -⟩ := (aiParse_eq_some_iff j v).mp hv
    have hcomb := (interpret_tier1 hv task).symm.trans hint
    injection hcomb with ha hb
    unfold subtasksToInsert
    rw [hlen, ← hb]
    exact ⟨h3, h5⟩

/-- Claim C2 witness: the tier-1 scenario, where the bounds do hold. -/
theorem persisted_subtask_count_witness :
    1 ≤ ([⟨10, 1, "Send invitations", false, 0⟩, ⟨11, 1, "Order cake", false, 1⟩,
          ⟨12, 1, "Buy decorations", false, 2⟩] : List SubtaskRow).length :=
  (persisted_subtask_count envTier1 emptyDB 1 "Birthday Party Planning"
    [⟨10, 1, "Send invitations", false, 0⟩, ⟨11, 1, "Order cake", false, 1⟩,
     ⟨12, 1, "Buy decorations", false, 2⟩] rfl).1

/-! ## Claim C3 — atomicity of task creation -/

theorem filter_fresh_append {l : List TaskRow} {nid : Nat}
    (hfresh : ∀ t ∈ l, t.id ≠ nid) (row : TaskRow) (hrow : row.id = nid) :
    (l ++ [row]).filter (fun t => t.id != nid) = l := by
  rw [List.filter_append]
  have h1 : l.filter (fun t => t.id != nid) = l := by
    apply List.filter_eq_self.mpr
    intro a ha
    simp only [bne_iff_ne, ne_eq]
    exact hfresh a ha
  have h2 : [row].filter (fun t => t.id != nid) = [] := by
    simp [List.filter, hrow]
  rw [h1, h2, List.append_nil]

/-- Claim C3 counterexample: the claim says every execution leaves either a
task with 3–5 subtask rows or nothing; this execution (tier-2 recovery of
two subtasks) persists a task row together with exactly two subtask rows. -/
theorem two_subtasks_persisted_cex :
    (postTasks envTwoSubtasks emptyDB).2.tasks = [⟨1, 0, "Valid Title"⟩] ∧
    (postTasks envTwoSubtasks emptyDB).2.subtasks.length = 2 :=
  ⟨rfl, rfl⟩

/-- Claim C3 (amended): task creation is atomic: provided the store assigns
a fresh task id, every execution either leaves the store unchanged (and
returns no `created` response) or persists exactly one task row together
with all of its `n ≥ 1` subtask rows; and whenever the subtask batch insert
fails after the task row was created, the handler's compensating delete
restores the original store. The claimed "3–5" row count holds only for the
tier-1 path (claim C2). -/
theorem postTasks_atomicity (env : PostEnv) (db : DB)
    (hfresh : ∀ t ∈ db.tasks, t.id ≠ env.newTaskId) :
    (((postTasks env db).2 = db ∧
      ∀ tid t rows, (postTasks env db).1 ≠ .created tid t rows) ∨
     (∃ uid title rows, (postTasks env db).1 = .created env.newTaskId title rows ∧
       1 ≤ rows.length ∧
       (postTasks env db).2 =
         ⟨db.tasks ++ [TaskRow.mk env.newTaskId uid title], db.subtasks ++ rows⟩)) ∧
    ((postTasks env db).1 = .subtaskCreateFailed → (postTasks env db).2 = db) := by
  rcases postTasks_run_cases env db with
    ⟨hnc, hnsf, hdb⟩ |
    ⟨hresp, uid, title, texts, -, ⟨task, -, hint⟩, -, -, hdb⟩ |
    ⟨uid, title, texts, -, ⟨task, -, hint⟩, -, -, heq⟩
  · exact ⟨Or.inl ⟨hdb, hnc⟩, fun hc => absurd hc hnsf⟩
  · have hdb' : (postTasks env db).2 = db := by
      rw [hdb, filter_fresh_append hfresh (TaskRow.mk env.newTaskId uid title) rfl]
    refine ⟨Or.inl ⟨hdb', ?_⟩, fun _ => hdb'⟩
    intro tid t rows hcr
    rw [hresp] at hcr
    simp at hcr
  · have h1 : (postTasks env db).1 =
        .created env.newTaskId title
          (subtasksToInsert env.newTaskId env.subtaskIdBase texts) := by
      rw [heq]
    have hpos : 1 ≤ (subtasksToInsert env.newTaskId env.subtaskIdBase texts).length := by
      have hl := subtaskRowsFrom_length env.newTaskId env.subtaskIdBase texts 0
      have hp := interpret_ok_pos hint
      unfold subtasksToInsert
      omega
    refine ⟨Or.inr ⟨uid, title, _, h1, hpos, by rw [heq]⟩, ?_⟩
    intro hc
    rw [h1] at hc
    simp at hc

/-- Claim C3 witness: subtask insertion fails after the task row was
created; the compensating delete leaves the store exactly as before. -/
theorem postTasks_atomicity_witness :
    (postTasks envSubFail emptyDB).2 = emptyDB :=
  (postTasks_atomicity envSubFail emptyDB
    (fun t ht => absurd ht (List.not_mem_nil t))).2 rfl

/-! ## Claim C4 — interpreter failure creates nothing -/

/-- Claim C4: when `JSON.parse` fails on the completion output, or full
validation fails and the tier-2 extraction yields zero usable subtask
texts, the handler answers 500 "Failed to parse task breakdown" and the
store is untouched: no task row and no subtask row is created. -/
theorem interpreter_failure_no_rows (env : PostEnv) (db : DB) (uid : Nat)
    (task : String) (c : String)
    (huser : env.user = some uid)
    (hschema : createTaskSchemaParse env.body = some task)
    (hcontent : env.content = some c)
    (hfail : env.parsedContent = none ∨
      ∃ j, env.parsedContent = some j ∧ aiTaskResponseSchemaParse j = none ∧
        tier2Usable j = []) :
    postTasks env db = (.parseFailed, db) := by
  have hint : interpret env.parsedContent task = .parseError := by
    rcases hfail with hp | ⟨j, hp, hv, hnil⟩
    · rw [hp]
      rfl
    · rw [hp]
      exact interpret_fail task hv hnil
  have h1 : postTasks env db =
      match createTaskSchemaParse env.body with
      | none => (.invalidInput, db)
      | some task =>
        match env.content with
        | none => (.genFailed, db)
        | some _ =>
          match interpret env.parsedContent task with
          | .parseError => (.parseFailed, db)
          | .ok friendlyTitle subtaskTexts =>
            postTasksPersist uid friendlyTitle subtaskTexts env db := by
    unfold postTasks
    rw [huser]
  have h2 : postTasks env db =
      match env.content with
      | none => (.genFailed, db)
      | some _ =>
        match interpret env.parsedContent task with
        | .parseError => (.parseFailed, db)
        | .ok friendlyTitle subtaskTexts =>
          postTasksPersist uid friendlyTitle subtaskTexts env db := by
    rw [h1, hschema]
  have h3 : postTasks env db =
      match interpret env.parsedContent task with
      | .parseError => (.parseFailed, db)
      | .ok friendlyTitle subtaskTexts =>
        postTasksPersist uid friendlyTitle subtaskTexts env db := by
    rw [h2, hcontent]
  rw [h3, hint]

/-- Claim C4 witness: non-JSON completion content; the request fails with
the parse error and the store stays empty. -/
theorem interpreter_failure_no_rows_witness :
    postTasks envParseFail emptyDB = (.parseFailed, emptyDB) :=
  interpreter_failure_no_rows envParseFail emptyDB 0 "Do something" "not json"
    rfl rfl rfl (Or.inl rfl)

/-! ## Claim C8 — positions, order and checked state of inserted rows -/

/-- Claim C8: whenever `POST /api/tasks` persists subtask rows, it inserts
exactly one row per interpreter text, in the interpreter's order, with
positions forming the contiguous zero-based sequence `0..n-1` and `checked`
false on every row. -/
theorem subtask_rows_contiguous (env : PostEnv) (db : DB) (tid : Nat)
    (title : String) (rows : List SubtaskRow)
    (h : (postTasks env db).1 = .created tid title rows) :
    ∃ task texts, createTaskSchemaParse env.body = some task ∧
      interpret env.parsedContent task = .ok title texts ∧
      rows.length = texts.length ∧
      rows.map (fun r => r.position) = List.range rows.length ∧
      (∀ r ∈ rows, r.checked = false ∧ r.taskId = tid) ∧
      (postTasks env db).2.subtasks = db.subtasks ++ rows := by
  obtain ⟨uid, task, texts, -, hschema, hint, htid, hrows, hdb2⟩ :=
    postTasks_created_inv h
  subst htid
  subst hrows
  obtain ⟨hlen, hpos, htexts, hfields⟩ :=
    subtasksToInsert_spec env.newTaskId env.subtaskIdBase texts
  refine ⟨task, texts, hschema, hint, hlen, ?_, hfields, by rw [hdb2]⟩
  rw [hlen]
  exact hpos

/-- Claim C8 witness: the tier-1 scenario yields rows at positions 0, 1, 2,
all unchecked, appended to the store. -/
theorem subtask_rows_contiguous_witness :
    (postTasks envTier1 emptyDB).2.subtasks =
      emptyDB.subtasks ++
        [⟨10, 1, "Send invitations", false, 0⟩, ⟨11, 1, "Order cake", false, 1⟩,
         ⟨12, 1, "Buy decorations", false, 2⟩] := by
  obtain ⟨task, texts, -, -, -, -, -, hsub⟩ :=
    subtask_rows_contiguous envTier1 emptyDB 1 "Birthday Party Planning"
      [⟨10, 1, "Send invitations", false, 0⟩, ⟨11, 1, "Order cake", false, 1⟩,
       ⟨12, 1, "Buy decorations", false, 2⟩] rfl
  exact hsub

/-! ## Claim C10 — persisted subtask texts are trimmed in every tier -/

/-- Claim C10: every subtask text persisted by `POST /api/tasks` is the
trimmed form of the corresponding interpreter output, in every tier; in
particular, even on the fully-validated tier-1 path — whose interpreter
output is verbatim and untrimmed — the stored texts are trimmed. -/
theorem persisted_texts_trimmed (env : PostEnv) (db : DB) (tid : Nat)
    (title : String) (rows : List SubtaskRow)
    (h : (postTasks env db).1 = .created tid title rows) :
    (∃ task texts, interpret env.parsedContent task = .ok title texts ∧
      rows.map (fun r => r.text) = texts.map jsTrim) ∧
    (∀ j v, env.parsedContent = some j → aiTaskResponseSchemaParse j = some v →
      rows.map (fun r => r.text) = v.subtasks.map jsTrim) := by
  obtain ⟨uid, task, texts, -, -, hint, -, hrows, -⟩ := postTasks_created_inv h
  subst hrows
  have htexts := subtaskRowsFrom_texts env.newTaskId env.subtaskIdBase texts 0
  refine ⟨⟨task, texts, hint, htexts⟩, ?_⟩
  intro j v hp hv
  rw [hp] at hint
  have hcomb := (interpret_tier1 hv task).symm.trans hint
  injection hcomb with ha hb
  rw [hb]
  exact htexts

/-- Claim C10 witness: a tier-1 response with whitespace-laden subtask
texts; the stored texts are their trimmed forms. -/
theorem persisted_texts_trimmed_witness :
    ([⟨10, 1, "a", false, 0⟩, ⟨11, 1, "b", false, 1⟩,
      ⟨12, 1, "c", false, 2⟩] : List SubtaskRow).map (fun r => r.text) =
      [" a ", "b ", "c"].map jsTrim := by
  have hmain := (persisted_texts_trimmed envTier1Ws emptyDB 1 "My Nice Title"
    [⟨10, 1, "a", false, 0⟩, ⟨11, 1, "b", false, 1⟩,
     ⟨12, 1, "c", false, 2⟩] rfl).2
    (Json.obj
      [("title", Json.str "My Nice Title"),
       ("subtasks", Json.arr
         [Json.str " a ", Json.str "b ", Json.str "c"])])
    ⟨"My Nice Title", [" a ", "b ", "c"]⟩ rfl rfl
  exact hmain

/-! ## Claim C6 — interpreter round-trip -/

/-- Claim C6: for every completion output whose `JSON.parse` result fully
satisfies `aiTaskResponseSchema`, the interpreter returns exactly the
validated title and subtask list, verbatim and in order. -/
theorem interpreter_roundtrip (j : Json) (v : AITaskResponse) (task : String)
    (h : aiTaskResponseSchemaParse j = some v) :
    interpret (some j) task = .ok v.title v.subtasks :=
  interpret_tier1 h task

/-- Claim C6 witness: the spec's end-to-end scenario input. -/
theorem interpreter_roundtrip_witness :
    interpret
      (some (Json.obj
        [("title", Json.str "Birthday Party Planning"),
         ("subtasks", Json.arr
           [Json.str "Send invitations", Json.str "Order cake",
            Json.str "Buy decorations"])]))
      "Plan a birthday party" =
      .ok "Birthday Party Planning"
        ["Send invitations", "Order cake", "Buy decorations"] :=
  interpreter_roundtrip
    (Json.obj
      [("title", Json.str "Birthday Party Planning"),
       ("subtasks", Json.arr
         [Json.str "Send invitations", Json.str "Order cake",
          Json.str "Buy decorations"])])
    ⟨"Birthday Party Planning",
     ["Send invitations", "Order cake", "Buy decorations"]⟩
    "Plan a birthday party" rfl

/-! ## Claim C7 — tier-2 title selection -/

/-- Claim C7: in the tier-2 partial-recovery path (full validation failed,
filtered subtasks non-empty), the interpreter succeeds with the filtered
texts, and the title is the parsed object's title trimmed and truncated to
50 characters when that title is a string of trimmed length at least 2, and
the original user input otherwise. -/
theorem tier2_title_selection (j : Json) (task : String)
    (hv : aiTaskResponseSchemaParse j = none) (hne : tier2Usable j ≠ []) :
    interpret (some j) task = .ok (tier2Title j task) (tier2Usable j) ∧
    (∀ t, getField j "title" = some (Json.str t) → 2 ≤ (jsTrim t).length →
      tier2Title j task = jsSlice (jsTrim t) 50) ∧
    ((¬ ∃ t, getField j "title" = some (Json.str t) ∧ 2 ≤ (jsTrim t).length) →
      tier2Title j task = task) := by
  refine ⟨interpret_tier2 task hv hne, ?_, ?_⟩
  · intro t hgt hlen
    unfold tier2Title
    rw [hgt]
    exact if_pos hlen
  · intro hnex
    unfold tier2Title
    rcases hgt : getField j "title" with _ | jt
    · rfl
    · cases jt with
      | str t =>
        have : ¬ 2 ≤ (jsTrim t).length := fun hlen => hnex ⟨t, hgt, hlen⟩
        exact if_neg this
      | null => rfl
      | bool b => rfl
      | num n => rfl
      | arr xs => rfl
      | obj fs => rfl

/-- Claim C7 witness: a response failing full validation (one subtask is the
empty string) with a salvageable title carrying surrounding whitespace; the
interpreter returns the trimmed, truncated title and the filtered texts. -/
theorem tier2_title_selection_witness :
    interpret
      (some (Json.obj
        [("title", Json.str " My Title "),
         ("subtasks", Json.arr [Json.str "a", Json.str "", Json.str "b"])]))
      "orig task" = .ok "My Title" ["a", "b"] :=
  (tier2_title_selection
    (Json.obj
      [("title", Json.str " My Title "),
       ("subtasks", Json.arr [Json.str "a", Json.str "", Json.str "b"])])
    "orig task" rfl (by decide)).1

/-- Claim C5 witness: a concrete valid response accepted through the
characterization, and its revalidation. -/
theorem aiResponse_validation_characterization_witness :
    aiTaskResponseSchemaParse
      (Json.obj [("title", Json.str "abc"),
                 ("subtasks", Json.arr [Json.str "x", Json.str "y", Json.str "z"])]) =
      some ⟨"abc", ["x", "y", "z"]⟩ :=
  (aiResponse_validation_characterization
      (Json.obj [("title", Json.str "abc"),
                 ("subtasks", Json.arr [Json.str "x", Json.str "y", Json.str "z"])])
      ⟨"abc", ["x", "y", "z"]⟩).1.mpr
    ⟨rfl, by decide, by decide, rfl, by decide, by decide, by decide⟩

/-! ## Claim C9 — the PATCH update writes only `checked` -/

/-- Row-wise effect of the `update({checked}).eq("id").eq("task_id")`
statement: every row keeps its id, task id, text and position, and a row
not matching both key columns is wholly unchanged. -/
theorem forall₂_map_update (c : Bool) (sid tid : Nat) (l : List SubtaskRow) :
    List.Forall₂ (fun old new =>
        new.id = old.id ∧ new.taskId = old.taskId ∧ new.text = old.text ∧
        new.position = old.position ∧
        ((old.id = sid ∧ old.taskId = tid) ∨ new = old))
      l (l.map (fun s =>
        if s.id == sid && s.taskId == tid then { s with checked := c } else s)) := by
  induction l with
  | nil => exact List.Forall₂.nil
  | cons s rest ih =>
    rw [List.map_cons]
    refine List.Forall₂.cons ?_ ih
    cases hcond : (s.id == sid && s.taskId == tid) with
    | false =>
      rw [if_neg Bool.false_ne_true]
      exact ⟨rfl, rfl, rfl, rfl, Or.inr rfl⟩
    | true =>
      rw [if_pos rfl]
      obtain ⟨h1, h2⟩ := Bool.and_eq_true_iff.mp hcond
      exact ⟨rfl, rfl, rfl, rfl,
        Or.inl ⟨eq_of_beq h1, eq_of_beq h2⟩⟩

/-- Claim C9: in every execution of the PATCH handler, the tasks table is
unmodified and the subtasks table is modified at most row-wise in the
`checked` field of the addressed subtask (matching `subtaskId` and
`taskId`): every row keeps its id, task id, text and position, and every
row other than the addressed one is wholly unchanged. -/
theorem patch_checked_frame (user : Option Nat) (body : Json)
    (taskId subtaskId : Nat) (db : DB) :
    (patchSubtask user body taskId subtaskId db).2.tasks = db.tasks ∧
    List.Forall₂ (fun old new =>
        new.id = old.id ∧ new.taskId = old.taskId ∧ new.text = old.text ∧
        new.position = old.position ∧
        ((old.id = subtaskId ∧ old.taskId = taskId) ∨ new = old))
      db.subtasks (patchSubtask user body taskId subtaskId db).2.subtasks := by
  have hrefl : List.Forall₂ (fun old new =>
      new.id = old.id ∧ new.taskId = old.taskId ∧ new.text = old.text ∧
      new.position = old.position ∧
      ((old.id = subtaskId ∧ old.taskId = taskId) ∨ new = old))
    db.subtasks db.subtasks :=
    List.forall₂_same.mpr (fun x _ => ⟨rfl, rfl, rfl, rfl, Or.inr rfl⟩)
  cases huser : user with
  | none =>
    exact ⟨rfl, hrefl⟩
  | some uid =>
    have h1 : patchSubtask (some uid) body taskId subtaskId db =
        match updateSubtaskSchemaParse body with
        | none => (.invalidInput, db)
        | some checked =>
          if db.tasks.any (fun t => t.id == taskId && t.userId == uid) then
            match (db.subtasks.map (fun s =>
                if s.id == subtaskId && s.taskId == taskId then
                  { s with checked := checked }
                else s)).find?
                (fun s => s.id == subtaskId && s.taskId == taskId) with
            | some subtask =>
              (.ok subtask, ⟨db.tasks, db.subtasks.map (fun s =>
                if s.id == subtaskId && s.taskId == taskId then
                  { s with checked := checked }
                else s)⟩)
            | none =>
              (.updateFailed, ⟨db.tasks, db.subtasks.map (fun s =>
                if s.id == subtaskId && s.taskId == taskId then
                  { s with checked := checked }
                else s)⟩)
          else (.notFound, db) := rfl
    cases hbody : updateSubtaskSchemaParse body with
    | none =>
      have h2 : patchSubtask (some uid) body taskId subtaskId db = (.invalidInput, db) := by
        rw [h1, hbody]
      rw [h2]
      exact ⟨rfl, hrefl⟩
    | some checked =>
      have h2 : patchSubtask (some uid) body taskId subtaskId db =
          if db.tasks.any (fun t => t.id == taskId && t.userId == uid) then
            match (db.subtasks.map (fun s =>
                if s.id == subtaskId && s.taskId == taskId then
                  { s with checked := checked }
                else s)).find?
                (fun s => s.id == subtaskId && s.taskId == taskId) with
            | some subtask =>
              (.ok subtask, ⟨db.tasks, db.subtasks.map (fun s =>
                if s.id == subtaskId && s.taskId == taskId then
                  { s with checked := checked }
                else s)⟩)
            | none =>
              (.updateFailed, ⟨db.tasks, db.subtasks.map (fun s =>
                if s.id == subtaskId && s.taskId == taskId then
                  { s with checked := checked }
                else s)⟩)
          else (.notFound, db) := by
        rw [h1, hbody]
      cases hown : db.tasks.any (fun t => t.id == taskId && t.userId == uid) with
      | false =>
        rw [hown, if_neg Bool.false_ne_true] at h2
        rw [h2]
        exact ⟨rfl, hrefl⟩
      | true =>
        rw [hown, if_pos rfl] at h2
        cases hfind : (db.subtasks.map (fun s =>
            if s.id == subtaskId && s.taskId == taskId then
              { s with checked := checked }
            else s)).find?
            (fun s => s.id == subtaskId && s.taskId == taskId) with
        | some st =>
          have h3 : patchSubtask (some uid) body taskId subtaskId db =
              (.ok st, ⟨db.tasks, db.subtasks.map (fun s =>
                if s.id == subtaskId && s.taskId == taskId then
                  { s with checked := checked }
                else s)⟩) := by
            rw [h2, hfind]
          rw [h3]
          exact ⟨rfl, forall₂_map_update checked subtaskId taskId db.subtasks⟩
        | none =>
          have h3 : patchSubtask (some uid) body taskId subtaskId db =
              (.updateFailed, ⟨db.tasks, db.subtasks.map (fun s =>
                if s.id == subtaskId && s.taskId == taskId then
                  { s with checked := checked }
                else s)⟩) := by
            rw [h2, hfind]
          rw [h3]
          exact ⟨rfl, forall₂_map_update checked subtaskId taskId db.subtasks⟩

end TaskBreaker
